import Mathlib

/-!
Verification of the webhook ingestion and durable log pipeline of the
stripe example servers.

The embedding models, from the source:
- the JSON value universe and the JavaScript property-access / truthiness
  semantics the handlers rely on (`Json`, `jsTruthy`, `jsGetO`);
- the `POST /webhook` handler of the main server (signature verification
  with unauthenticated fallback, ring-buffer push with splice-to-100,
  fire-and-forget log append, type dispatch, response);
- the `POST /webhook` handler of the customer-flow server (always verifies);
- the log pipeline `ensureLogDir` / `rotateLogIfNeeded` / `appendWebhookLog`
  over an explicit filesystem state with fault injection (`env` decides
  whether the n-th filesystem operation succeeds).

External collaborators (the provider SDK's `constructEvent`, `JSON.parse`,
`JSON.stringify`, `zlib`, `fs`) are not part of the repository; they are
modelled as oracles or small explicit models, each marked in its doc comment.
-/

/-- JSON values as produced by parsing a request body. -/
inductive Json where
  | null
  | bool (b : Bool)
  | num (n : Int)
  | str (s : String)
  | arr (xs : List Json)
  | obj (fields : List (String × Json))

/-- Last-binding-wins field lookup, as `JSON.parse` keeps the last duplicate key. -/
def objLookup : List (String × Json) → String → Option Json
  | [], _ => none
  | (k, v) :: rest, key =>
    match objLookup rest key with
    | some r => some r
    | none => if k = key then some v else none

/-- JavaScript truthiness of a value (`none` is `undefined`). -/
def jsTruthy : Option Json → Bool
  | none => false
  | some Json.null => false
  | some (Json.bool b) => b
  | some (Json.num n) => if n = 0 then false else true
  | some (Json.str s) => if s = "" then false else true
  | some (Json.arr _) => true
  | some (Json.obj _) => true

/-- JavaScript property access `v[k]`: throws a TypeError on `null`/`undefined`,
yields `undefined` on other non-objects, looks the key up on objects. -/
def jsGetO : Option Json → String → Except String (Option Json)
  | none, _ => Except.error "TypeError: cannot read properties of undefined"
  | some Json.null, _ => Except.error "TypeError: cannot read properties of null"
  | some (Json.obj fs), k => Except.ok (objLookup fs k)
  | some _, _ => Except.ok none

/-- Property access on a value known to be defined. -/
def jsGetJ (j : Json) (k : String) : Except String (Option Json) := jsGetO (some j) k

/-- JSON string escaping for one character, as `JSON.stringify` emits it
(control characters other than the common escapes are left as-is in this model). -/
def escapeChar (c : Char) : String :=
  if c = '"' then "\\\""
  else if c = '\\' then "\\\\"
  else if c = '\n' then "\\n"
  else if c = '\r' then "\\r"
  else if c = '\t' then "\\t"
  else String.singleton c

def escList : List Char → String
  | [] => ""
  | c :: cs => escapeChar c ++ escList cs

def escapeStr (s : String) : String := escList s.data

def digitCh (n : Nat) : Char :=
  if n = 0 then '0' else if n = 1 then '1' else if n = 2 then '2' else if n = 3 then '3'
  else if n = 4 then '4' else if n = 5 then '5' else if n = 6 then '6' else if n = 7 then '7'
  else if n = 8 then '8' else '9'

def natDigitsAux (fuel : Nat) (n : Nat) : List Char :=
  match fuel with
  | 0 => []
  | f + 1 => if n = 0 then [] else natDigitsAux f (n / 10) ++ [digitCh (n % 10)]

def renderNat (n : Nat) : String :=
  if n = 0 then "0" else String.mk (natDigitsAux n n)

def renderInt (i : Int) : String :=
  if i < 0 then "-" ++ renderNat i.natAbs else renderNat i.natAbs

def commaSep : List String → String
  | [] => ""
  | [s] => s
  | s :: rest => s ++ "," ++ commaSep rest

/-- Modelled from the spec: serialization of a JSON value on a single line,
as `JSON.stringify` (an external platform builtin) produces it. -/
def Json.render : Json → String
  | .null => "null"
  | .bool true => "true"
  | .bool false => "false"
  | .num n => renderInt n
  | .str s => "\"" ++ escapeStr s ++ "\""
  | .arr xs => "[" ++ commaSep (xs.attach.map (fun x => x.1.render)) ++ "]"
  | .obj fs => "\x7b" ++ commaSep (fs.attach.map (fun kv =>
      "\"" ++ escapeStr kv.1.1 ++ "\":" ++ kv.1.2.render)) ++ "\x7d"
decreasing_by
  · have := List.sizeOf_lt_of_mem x.2
    simp only [Json.arr.sizeOf_spec]
    omega
  · have h1 := List.sizeOf_lt_of_mem kv.2
    have h2 : sizeOf kv.1.2 < sizeOf kv.1 := by
      cases kv.1 with
      | mk a b => simp only [Prod.mk.sizeOf_spec]; omega
    simp only [Json.obj.sizeOf_spec]
    omega

/-- Number of newline characters in a string: the line structure of the log. -/
def newlineCount (s : String) : Nat := s.data.countP (fun c => c == '\n')

/-! ## The webhook verification step (main server, `POST /webhook`) -/

/-- Truthiness of an optional header / environment string
(`undefined` and the empty string are falsy). -/
def truthyOptStr : Option String → Bool
  | none => false
  | some s => if s = "" then false else true

/-- Outcome of `JSON.parse(req.body.toString())`: the parse function itself is an
external builtin, passed as the oracle `pj`. -/
def jsonParseStep (pj : String → Option Json) (body : String) : Except String Json :=
  match pj body with
  | some e => Except.ok e
  | none => Except.error "invalid JSON payload"

/-- Modelled from the spec: `stripe.webhooks.constructEvent(body, sig, secret)` of the
provider SDK (not part of this repository) verifies the signature header over the raw
body bytes with the shared secret, then parses the body; it throws when the header or
secret is missing, when the signature does not match (`vo` is the verification oracle),
or when the payload is malformed JSON. -/
def constructEventModel (vo : String → String → String → Bool) (pj : String → Option Json)
    (body : String) (sig secret : Option String) : Except String Json :=
  match sig, secret with
  | some sg, some sc =>
    if vo body sg sc then jsonParseStep pj body
    else Except.error "signature verification failed"
  | _, _ => Except.error "missing signature or secret"

/-- The verification step of the main server's handler: verify with
`constructEvent` when both the secret and the signature header are truthy,
otherwise parse the raw body directly. -/
def verifyWebhook (vo : String → String → String → Bool) (pj : String → Option Json)
    (secret sig : Option String) (body : String) : Except String Json :=
  if truthyOptStr secret && truthyOptStr sig then
    constructEventModel vo pj body sig secret
  else jsonParseStep pj body

/-! ## The main server's ingestion handler -/

/-- One record of the `receivedWebhooks` in-memory buffer:
`{id: event.id, type: event.type, created: <timestamp>, data: event.data.object}`. -/
structure StoredRecord where
  id : Option Json
  type : Option Json
  created : String
  data : Option Json

/-- Construction of the buffered record; propagates the TypeError thrown when
`event` is `null` or `event.data` is `null`/`undefined`. -/
def buildRecord (now : String) (event : Json) : Except String StoredRecord :=
  match jsGetJ event "id" with
  | Except.error m => Except.error m
  | Except.ok i =>
    match jsGetJ event "type" with
    | Except.error m => Except.error m
    | Except.ok t =>
      match jsGetJ event "data" with
      | Except.error m => Except.error m
      | Except.ok d =>
        match jsGetO d "object" with
        | Except.error m => Except.error m
        | Except.ok o => Except.ok ⟨i, t, now, o⟩

/-- `receivedWebhooks.push(record)` followed by
`if (receivedWebhooks.length > 100) receivedWebhooks.splice(0, length - 100)`. -/
def pushRecord (buf : List StoredRecord) (r : StoredRecord) : List StoredRecord :=
  if 100 < (buf ++ [r]).length then (buf ++ [r]).drop ((buf ++ [r]).length - 100)
  else buf ++ [r]

/-- The field reads done by one `console.log` line of the dispatch switch:
`event.data.object.<k>` (the only part of dispatch that can throw). -/
def readDataObjectField (event : Json) (k : String) : Except String Unit :=
  match jsGetJ event "data" with
  | Except.error m => Except.error m
  | Except.ok d =>
    match jsGetO d "object" with
    | Except.error m => Except.error m
    | Except.ok o =>
      match jsGetO o k with
      | Except.error m => Except.error m
      | Except.ok _ => Except.ok ()

/-- The `switch (event.type)` dispatch of the main server's handler. -/
def dispatchEvent (event : Json) : Except String Unit :=
  match jsGetJ event "type" with
  | Except.error m => Except.error m
  | Except.ok (some (Json.str s)) =>
    if s = "payment_intent.succeeded" then readDataObjectField event "id"
    else if s = "payment_intent.payment_failed" then
      readDataObjectField event "last_payment_error"
    else Except.ok ()
  | Except.ok _ => Except.ok ()

/-- The HTTP response of a webhook request: `200 {"received": true}`,
`400 Webhook Error: <msg>`, or the framework's 500 on an uncaught throw. -/
inductive WebhookResponse where
  | ok
  | clientError (msg : String)
  | serverError
deriving DecidableEq

def statusOf : WebhookResponse → Nat
  | WebhookResponse.ok => 200
  | WebhookResponse.clientError _ => 400
  | WebhookResponse.serverError => 500

def bodyOf : WebhookResponse → String
  | WebhookResponse.ok => "\x7b\"received\":true\x7d"
  | WebhookResponse.clientError m => "Webhook Error: " ++ m
  | WebhookResponse.serverError => "Internal Server Error"

/-- Everything one `POST /webhook` request does to the main server, apart from the
log file side effect: the response sent, the buffer afterwards, the event handed to
`appendWebhookLog` (if reached), and whether the dispatch switch ran. -/
structure HandlerOutcome where
  resp : WebhookResponse
  buf : List StoredRecord
  logged : Option Json
  dispatched : Bool

/-- Everything the main server's handler does after the try block: push the stored
record (an uncaught throw here fails the request with a server error), fire the log
append, splice the buffer to 100, dispatch, respond. -/
def ingestVerified (event : Json) (now : String) (buf : List StoredRecord) :
    HandlerOutcome :=
  match buildRecord now event with
  | Except.error _ => ⟨WebhookResponse.serverError, buf, none, false⟩
  | Except.ok r =>
    match dispatchEvent event with
    | Except.error _ => ⟨WebhookResponse.serverError, pushRecord buf r, some event, true⟩
    | Except.ok _ => ⟨WebhookResponse.ok, pushRecord buf r, some event, true⟩

/-- The main server's `POST /webhook` handler. Inside the try block: verify (or
fallback-parse), and — in the signature-verified branch only — the success log line
reads `event.type`, so a TypeError there (a verified `null` event) is caught and
answered with 400. After the try block, `ingestVerified` runs uncaught. -/
def webhookHandler (vo : String → String → String → Bool) (pj : String → Option Json)
    (secret sig : Option String) (body now : String) (buf : List StoredRecord) :
    HandlerOutcome :=
  match verifyWebhook vo pj secret sig body with
  | Except.error m => ⟨WebhookResponse.clientError m, buf, none, false⟩
  | Except.ok event =>
    if truthyOptStr secret && truthyOptStr sig then
      match jsGetJ event "type" with
      | Except.error m => ⟨WebhookResponse.clientError m, buf, none, false⟩
      | Except.ok _ => ingestVerified event now buf
    else ingestVerified event now buf

/-! ## The customer-flow server's webhook handler -/

/-- The `switch (event.type)` dispatch of the customer-flow server. -/
def iapDispatch (event : Json) : Except String Unit :=
  match jsGetJ event "type" with
  | Except.error m => Except.error m
  | Except.ok (some (Json.str s)) =>
    if s = "checkout.session.completed" then readDataObjectField event "id"
    else if s = "customer.subscription.created" then readDataObjectField event "id"
    else if s = "customer.subscription.updated" then readDataObjectField event "id"
    else if s = "customer.subscription.deleted" then readDataObjectField event "id"
    else if s = "invoice.payment_succeeded" then readDataObjectField event "customer"
    else Except.ok ()
  | Except.ok _ => Except.ok ()

/-- The customer-flow server's `POST /webhook` handler: it always calls
`constructEvent`, with no unauthenticated fallback. -/
def iapWebhookHandler (vo : String → String → String → Bool) (pj : String → Option Json)
    (secret sig : Option String) (body : String) : WebhookResponse :=
  match constructEventModel vo pj body sig secret with
  | Except.error m => WebhookResponse.clientError m
  | Except.ok event =>
    match iapDispatch event with
    | Except.error _ => WebhookResponse.serverError
    | Except.ok _ => WebhookResponse.ok

/-! ## The log entry -/

/-- One line of the webhook log:
`{receivedAt, id: event.id || null, type: event.type || null,
payload: event.data ? event.data.object : event}`.
`payload = none` models `undefined` (its key is omitted by `JSON.stringify`). -/
structure LogEntry where
  receivedAt : String
  id : Json
  type : Json
  payload : Option Json

/-- `v || null`. -/
def orNull (v : Option Json) : Json :=
  if jsTruthy v then
    match v with
    | some j => j
    | none => Json.null
  else Json.null

/-- Construction of the log entry in `appendWebhookLog`; throws (like the source)
only when `event` itself is `null`. -/
def buildEntry (now : String) (event : Json) : Except String LogEntry :=
  match jsGetJ event "id" with
  | Except.error m => Except.error m
  | Except.ok i =>
    match jsGetJ event "type" with
    | Except.error m => Except.error m
    | Except.ok t =>
      match jsGetJ event "data" with
      | Except.error m => Except.error m
      | Except.ok d =>
        if jsTruthy d then
          match jsGetO d "object" with
          | Except.error m => Except.error m
          | Except.ok payload => Except.ok ⟨now, orNull i, orNull t, payload⟩
        else Except.ok ⟨now, orNull i, orNull t, some event⟩

/-- `JSON.stringify(entry)`: one JSON object, keys in insertion order, the
`payload` key omitted when its value is `undefined`. -/
def serializeEntry (e : LogEntry) : String :=
  "\x7b\"receivedAt\":" ++ Json.render (Json.str e.receivedAt) ++
  ",\"id\":" ++ e.id.render ++
  ",\"type\":" ++ e.type.render ++
  (match e.payload with
   | some p => ",\"payload\":" ++ p.render
   | none => "") ++ "\x7d"

/-! ## Filesystem model -/

/-- Byte content of a file. `gz inner` is the gzip stream output for `inner`
(`zlib` is external; compression is modelled as a reversible constructor, and the
compressed byte size is abstracted as the inner size). `app f s` is `f` followed
by the raw bytes `s` (appending to a non-raw file). -/
inductive FileData where
  | raw (bytes : String)
  | gz (inner : FileData)
  | app (f : FileData) (bytes : String)

def FileData.size : FileData → Nat
  | FileData.raw b => b.length
  | FileData.gz inner => inner.size
  | FileData.app f b => f.size + b.length

/-- Decompression of a gzip archive (defined only on compressed data). -/
def FileData.decompress : FileData → Option FileData
  | FileData.gz inner => some inner
  | _ => none

def lookupFile : List (String × FileData) → String → Option FileData
  | [], _ => none
  | (q, d) :: rest, p => if q = p then some d else lookupFile rest p

def setFile : List (String × FileData) → String → FileData → List (String × FileData)
  | [], p, d => [(p, d)]
  | (q, e) :: rest, p, d => if q = p then (p, d) :: rest else (q, e) :: setFile rest p d

def removeFile : List (String × FileData) → String → List (String × FileData)
  | [], _ => []
  | (q, e) :: rest, p => if q = p then removeFile rest p else (q, e) :: removeFile rest p

/-- The filesystem: existing directories and files. -/
structure FS where
  dirs : List String
  files : List (String × FileData)

/-- `fsp.mkdir(p, {recursive: true})`: succeeds whether or not the directory exists. -/
def mkdirRec (fs : FS) (p : String) : FS :=
  if fs.dirs.contains p then fs else ⟨p :: fs.dirs, fs.files⟩

/-- `fsp.rename(src, dst)` (source present in every reachable call site). -/
def renameFile (fs : FS) (src dst : String) : FS :=
  match lookupFile fs.files src with
  | some d => ⟨fs.dirs, setFile (removeFile fs.files src) dst d⟩
  | none => fs

/-- `fsp.appendFile(p, s)`: creates the file when absent. -/
def appendFileFS (fs : FS) (p : String) (s : String) : FS :=
  match lookupFile fs.files p with
  | some (FileData.raw b) => ⟨fs.dirs, setFile fs.files p (FileData.raw (b ++ s))⟩
  | some f => ⟨fs.dirs, setFile fs.files p (FileData.app f s)⟩
  | none => ⟨fs.dirs, setFile fs.files p (FileData.raw s)⟩

/-- The filesystem together with an operation counter; `env n` tells whether the
`n`-th filesystem operation of the process succeeds (fault injection). -/
structure World where
  fs : FS
  clock : Nat

/-- The fault-free environment: every filesystem operation succeeds. -/
def envOK : Nat → Bool := fun _ => true

def LOG_DIR : String := "logs"

def LOG_FILE : String := "logs/webhooks.log"

def MAX_LOG_BYTES : Nat := 5 * 1024 * 1024

/-- `new Date().toISOString().replace(/[:.]/g, '-')`. -/
def sanitizeTs (now : String) : String :=
  String.map (fun c => if c = ':' then '-' else if c = '.' then '-' else c) now

def rotatedPath (ts : String) : String := "logs/webhooks-" ++ ts ++ ".log"

def gzipPath (ts : String) : String := rotatedPath ts ++ ".gz"

/-- `ensureLogDir` with its internal try/catch; the flag reports whether an error
was caught (the call itself always resolves). -/
def ensureLogDirChecked (env : Nat → Bool) (w : World) : World × Bool :=
  if env w.clock then (⟨mkdirRec w.fs LOG_DIR, w.clock + 1⟩, false)
  else (⟨w.fs, w.clock + 1⟩, true)

def ensureLogDir (env : Nat → Bool) (w : World) : World :=
  (ensureLogDirChecked env w).1

/-- `rotateLogIfNeeded`: stat (a failure is caught as `null`), and when the size
reaches the threshold: rename, gzip the renamed file, unlink it. Every error is
caught; a failed unlink is swallowed; a failed gzip writes nothing in this model. -/
def rotateLogIfNeeded (env : Nat → Bool) (w : World) (now : String) : World :=
  match (if env w.clock then lookupFile w.fs.files LOG_FILE else none) with
  | none => ⟨w.fs, w.clock + 1⟩
  | some d =>
    if MAX_LOG_BYTES ≤ d.size then
      if env (w.clock + 1) then
        if env (w.clock + 2) then
          match lookupFile (renameFile w.fs LOG_FILE (rotatedPath (sanitizeTs now))).files
              (rotatedPath (sanitizeTs now)) with
          | some c =>
            if env (w.clock + 3) then
              ⟨⟨(renameFile w.fs LOG_FILE (rotatedPath (sanitizeTs now))).dirs,
                removeFile
                  (setFile (renameFile w.fs LOG_FILE (rotatedPath (sanitizeTs now))).files
                    (gzipPath (sanitizeTs now)) (FileData.gz c))
                  (rotatedPath (sanitizeTs now))⟩, w.clock + 4⟩
            else
              ⟨⟨(renameFile w.fs LOG_FILE (rotatedPath (sanitizeTs now))).dirs,
                setFile (renameFile w.fs LOG_FILE (rotatedPath (sanitizeTs now))).files
                  (gzipPath (sanitizeTs now)) (FileData.gz c)⟩, w.clock + 4⟩
          | none =>
            ⟨renameFile w.fs LOG_FILE (rotatedPath (sanitizeTs now)), w.clock + 4⟩
        else ⟨renameFile w.fs LOG_FILE (rotatedPath (sanitizeTs now)), w.clock + 3⟩
      else ⟨w.fs, w.clock + 2⟩
    else ⟨w.fs, w.clock + 1⟩

/-- `appendWebhookLog(event)`: ensure the directory, rotate if needed, build the
entry, append one serialized line; every error is caught, so the call always
resolves and the caller never observes a failure. -/
def appendWebhookLog (env : Nat → Bool) (w : World) (event : Json) (now : String) : World :=
  match buildEntry now event with
  | Except.error _ => rotateLogIfNeeded env (ensureLogDir env w) now
  | Except.ok entry =>
    if env (rotateLogIfNeeded env (ensureLogDir env w) now).clock then
      ⟨appendFileFS (rotateLogIfNeeded env (ensureLogDir env w) now).fs LOG_FILE
        (serializeEntry entry ++ "\n"),
       (rotateLogIfNeeded env (ensureLogDir env w) now).clock + 1⟩
    else ⟨(rotateLogIfNeeded env (ensureLogDir env w) now).fs,
      (rotateLogIfNeeded env (ensureLogDir env w) now).clock + 1⟩

/-! ## The composed system -/

/-- One inbound `POST /webhook` request (the configured secret is per-process). -/
structure Request where
  sig : Option String
  body : String
  now : String

/-- Process-wide mutable state: the filesystem world and `receivedWebhooks`. -/
structure SysState where
  world : World
  buf : List StoredRecord

/-- One request step of the main server: run the handler, then (when it was
fired) the detached log append. -/
def systemStep (vo : String → String → String → Bool) (pj : String → Option Json)
    (env : Nat → Bool) (secret : Option String) (s : SysState) (req : Request) :
    SysState × WebhookResponse :=
  match webhookHandler vo pj secret req.sig req.body req.now s.buf with
  | out =>
    (⟨match out.logged with
      | some e => appendWebhookLog env s.world e req.now
      | none => s.world, out.buf⟩, out.resp)

def initialState : SysState := ⟨⟨⟨[], []⟩, 0⟩, []⟩

def runSystem (vo : String → String → String → Bool) (pj : String → Option Json)
    (env : Nat → Bool) (secret : Option String) (reqs : List Request) : SysState :=
  reqs.foldl (fun s r => (systemStep vo pj env secret s r).1) initialState

/-- The `GET /webhook` handler: `{total: receivedWebhooks.length, events:
receivedWebhooks}`, and the buffer it leaves behind. -/
def getWebhookSnapshot (buf : List StoredRecord) :
    (Nat × List StoredRecord) × List StoredRecord :=
  ((buf.length, buf), buf)

/-! ## Concrete data for witnesses and counterexamples -/

/-- Signature oracle that accepts everything. -/
def voTrue : String → String → String → Bool := fun _ _ _ => true

/-- Signature oracle that rejects everything. -/
def voFalse : String → String → String → Bool := fun _ _ _ => false

def evGood : Json :=
  Json.obj [("id", Json.str "evt_1"), ("type", Json.str "charge.refunded"),
    ("data", Json.obj [("object", Json.obj [("id", Json.str "pi_1")])])]

def bodyGood : String :=
  "\x7b\"id\":\"evt_1\",\"type\":\"charge.refunded\",\"data\":\x7b\"object\":\x7b\"id\":\"pi_1\"\x7d\x7d\x7d"

/-- `JSON.parse` oracle defined at the one body the witnesses use. -/
def pjGood : String → Option Json := fun s => if s = bodyGood then some evGood else none

def evEmpty : Json := Json.obj []

def bodyEmpty : String := "\x7b\x7d"

def pjEmpty : String → Option Json := fun s => if s = bodyEmpty then some evEmpty else none

/-- `JSON.parse` oracle for which every body is malformed. -/
def pjNone : String → Option Json := fun _ => none

def bodyNull : String := "null"

/-- `JSON.parse` oracle under which the body `null` parses to the JSON `null`. -/
def pjNull : String → Option Json := fun s => if s = bodyNull then some Json.null else none

def now0 : String := "2026-01-01T00:00:00.000Z"

/-- The stored record the handler builds for `evGood`. -/
def recGood : StoredRecord :=
  ⟨some (Json.str "evt_1"), some (Json.str "charge.refunded"), now0,
    some (Json.obj [("id", Json.str "pi_1")])⟩

def rec0 : StoredRecord := ⟨none, none, now0, none⟩

def rs101 : List StoredRecord := List.replicate 101 rec0

/-- A request whose body is malformed under `pjNone`. -/
def reqBad : Request := ⟨none, bodyEmpty, now0⟩

/-- An event whose `id` and `type` are present but falsy (empty strings). -/
def evFalsy : Json := Json.obj [("id", Json.str ""), ("type", Json.str "")]

/-- The log entry built for `evFalsy`: both fields nulled, payload the whole event. -/
def entryFalsy : LogEntry := ⟨now0, Json.null, Json.null, some evFalsy⟩

/-- The log entry built for `evGood`. -/
def entryGood : LogEntry :=
  ⟨now0, Json.str "evt_1", Json.str "charge.refunded",
    some (Json.obj [("id", Json.str "pi_1")])⟩

/-- An event whose `data` field is present but falsy (`data: 0`). -/
def evDataZero : Json := Json.obj [("data", Json.num 0)]

/-- An active log file of exactly the rotation threshold size. -/
def bigChunk : String := String.mk (List.replicate 5242880 'a')

def bigData : FileData := FileData.raw bigChunk

/-- A filesystem whose active log file is at the rotation threshold. -/
def fsBig : FS := ⟨["logs"], [(LOG_FILE, bigData)]⟩

/-! ## Helper lemmas: newline counting -/

theorem newlineCount_append (a b : String) :
    newlineCount (a ++ b) = newlineCount a + newlineCount b := by
  simp [newlineCount, List.countP_append]

theorem escapeChar_nl (c : Char) : newlineCount (escapeChar c) = 0 := by
  unfold escapeChar
  split_ifs with h1 h2 h3 h4 h5
  · decide
  · decide
  · decide
  · decide
  · decide
  · simp [newlineCount, String.singleton]
    exact h3

theorem escList_nl (l : List Char) : newlineCount (escList l) = 0 := by
  induction l with
  | nil => decide
  | cons c cs ih => rw [escList, newlineCount_append, escapeChar_nl, ih]

theorem escapeStr_nl (s : String) : newlineCount (escapeStr s) = 0 := escList_nl s.data

theorem digitCh_ne_nl (m : Nat) : digitCh m ≠ '\n' := by
  unfold digitCh
  split_ifs <;> decide

theorem natDigitsAux_nl (fuel n : Nat) :
    newlineCount (String.mk (natDigitsAux fuel n)) = 0 := by
  induction fuel generalizing n with
  | zero => rfl
  | succ f ih =>
    rw [natDigitsAux]
    split_ifs with h
    · rfl
    · have := ih (n / 10)
      simp only [newlineCount] at this ⊢
      simp [List.countP_append, this, List.countP_cons, digitCh_ne_nl]

theorem renderNat_nl (n : Nat) : newlineCount (renderNat n) = 0 := by
  unfold renderNat
  split_ifs with h
  · decide
  · exact natDigitsAux_nl n n

theorem renderInt_nl (i : Int) : newlineCount (renderInt i) = 0 := by
  unfold renderInt
  split_ifs with h
  · rw [newlineCount_append, renderNat_nl]; decide
  · exact renderNat_nl i.natAbs

theorem commaSep_nl (l : List String) (h : ∀ s ∈ l, newlineCount s = 0) :
    newlineCount (commaSep l) = 0 := by
  induction l with
  | nil => decide
  | cons s rest ih =>
    cases rest with
    | nil => exact h s (by simp)
    | cons t ts =>
      rw [show commaSep (s :: t :: ts) = s ++ "," ++ commaSep (t :: ts) from rfl]
      rw [newlineCount_append, newlineCount_append, h s (by simp),
        ih (fun u hu => h u (by simp [hu]))]
      decide

theorem render_nl (j : Json) : newlineCount j.render = 0 := by
  induction j using Json.render.induct
  · rw [Json.render]; decide
  · rw [Json.render]; decide
  · rw [Json.render]; decide
  · rw [Json.render]; exact renderInt_nl _
  · rw [Json.render, newlineCount_append, newlineCount_append, escapeStr_nl]; decide
  · next xs ih =>
    rw [Json.render, newlineCount_append, newlineCount_append]
    rw [commaSep_nl _ (by
      intro s hs
      simp only [List.mem_map, List.mem_attach, true_and] at hs
      obtain ⟨x, hx⟩ := hs
      rw [← hx]
      exact ih x)]
    decide
  · next fs ih =>
    rw [Json.render, newlineCount_append, newlineCount_append]
    rw [commaSep_nl _ (by
      intro s hs
      simp only [List.mem_map, List.mem_attach, true_and] at hs
      obtain ⟨kv, hkv⟩ := hs
      rw [← hkv, newlineCount_append, newlineCount_append, newlineCount_append,
        escapeStr_nl, ih kv]
      rfl)]
    decide

theorem serializeEntry_nl (e : LogEntry) : newlineCount (serializeEntry e) = 0 := by
  unfold serializeEntry
  cases hp : e.payload with
  | none =>
    simp only [newlineCount_append, render_nl]
    decide
  | some p =>
    simp only [newlineCount_append, render_nl]
    decide

theorem serialized_line_nl (e : LogEntry) :
    newlineCount (serializeEntry e ++ "\n") = 1 := by
  rw [newlineCount_append, serializeEntry_nl]
  decide

/-! ## Helper lemmas: file association list -/

theorem lookupFile_set_self (l : List (String × FileData)) (p : String) (d : FileData) :
    lookupFile (setFile l p d) p = some d := by
  induction l with
  | nil => simp [setFile, lookupFile]
  | cons kv rest ih =>
    obtain ⟨q, e⟩ := kv
    by_cases h : q = p
    · simp [setFile, h, lookupFile]
    · simp [setFile, h, lookupFile, ih]

theorem lookupFile_set_ne (l : List (String × FileData)) (p q : String) (d : FileData)
    (h : p ≠ q) : lookupFile (setFile l p d) q = lookupFile l q := by
  induction l with
  | nil => simp [setFile, lookupFile, h]
  | cons kv rest ih =>
    obtain ⟨a, e⟩ := kv
    by_cases ha : a = p
    · subst ha
      simp [setFile, lookupFile, h]
    · simp only [setFile, if_neg ha, lookupFile]
      by_cases hq : a = q
      · simp [hq]
      · simp [hq, ih]

theorem lookupFile_remove_self (l : List (String × FileData)) (p : String) :
    lookupFile (removeFile l p) p = none := by
  induction l with
  | nil => simp [removeFile, lookupFile]
  | cons kv rest ih =>
    obtain ⟨q, e⟩ := kv
    by_cases h : q = p
    · simp [removeFile, h, ih]
    · simp [removeFile, h, lookupFile, ih]

theorem lookupFile_remove_ne (l : List (String × FileData)) (p q : String) (h : p ≠ q) :
    lookupFile (removeFile l p) q = lookupFile l q := by
  induction l with
  | nil => simp [removeFile]
  | cons kv rest ih =>
    obtain ⟨a, e⟩ := kv
    by_cases ha : a = p
    · subst ha
      simp [removeFile, lookupFile, h, ih]
    · simp only [removeFile, if_neg ha, lookupFile]
      by_cases hq : a = q
      · simp [hq]
      · simp [hq, ih]

/-! ## Helper lemmas: log paths are distinct -/

theorem rotatedPath_ne_log (ts : String) : rotatedPath ts ≠ LOG_FILE := by
  intro h
  have hlen := congrArg String.length h
  rw [rotatedPath, LOG_FILE, String.length_append, String.length_append] at hlen
  have h1 : ("logs/webhooks-" : String).length = 14 := rfl
  have h2 : (".log" : String).length = 4 := rfl
  have h3 : ("logs/webhooks.log" : String).length = 17 := rfl
  omega

theorem gzipPath_ne_log (ts : String) : gzipPath ts ≠ LOG_FILE := by
  intro h
  have hlen := congrArg String.length h
  rw [gzipPath, rotatedPath, LOG_FILE, String.length_append, String.length_append,
    String.length_append] at hlen
  have h1 : ("logs/webhooks-" : String).length = 14 := rfl
  have h2 : (".log" : String).length = 4 := rfl
  have h3 : (".gz" : String).length = 3 := rfl
  have h4 : ("logs/webhooks.log" : String).length = 17 := rfl
  omega

theorem gzipPath_ne_rotated (ts : String) : gzipPath ts ≠ rotatedPath ts := by
  intro h
  have hlen := congrArg String.length h
  rw [gzipPath, String.length_append] at hlen
  have h3 : (".gz" : String).length = 3 := rfl
  omega

/-! ## Helper lemmas: ring buffer -/

theorem pushRecord_length (buf : List StoredRecord) (r : StoredRecord)
    (h : buf.length ≤ 100) : (pushRecord buf r).length ≤ 100 := by
  unfold pushRecord
  split_ifs with hl
  · rw [List.length_drop]
    omega
  · rw [List.length_append] at hl
    simp only [List.length_singleton] at hl
    rw [List.length_append]
    simp only [List.length_singleton]
    omega

theorem foldl_pushRecord_eq (rs : List StoredRecord) :
    ∀ buf : List StoredRecord, buf.length ≤ 100 →
      List.foldl pushRecord buf rs = (buf ++ rs).drop (buf.length + rs.length - 100) := by
  induction rs with
  | nil =>
    intro buf h
    simp only [List.foldl_nil, List.append_nil, List.length_nil, Nat.add_zero]
    rw [Nat.sub_eq_zero_of_le h, List.drop_zero]
  | cons r rs ih =>
    intro buf h
    rw [List.foldl_cons]
    by_cases hl : buf.length + 1 ≤ 100
    · have hpush : pushRecord buf r = buf ++ [r] := by
        unfold pushRecord
        rw [if_neg]
        rw [List.length_append]
        simp only [List.length_singleton]
        omega
      rw [hpush, ih (buf ++ [r]) (by
        rw [List.length_append]
        simp only [List.length_singleton]
        omega)]
      have hix : (buf ++ [r]).length + rs.length - 100 =
          buf.length + (r :: rs).length - 100 := by
        rw [List.length_append, List.length_singleton, List.length_cons]
        omega
      rw [hix, List.append_assoc, List.singleton_append]
    · have h100 : buf.length = 100 := by omega
      have hlen : (buf ++ [r]).length = 101 := by
        rw [List.length_append]
        simp only [List.length_singleton]
        omega
      have hpush : pushRecord buf r = (buf ++ [r]).drop 1 := by
        unfold pushRecord
        rw [if_pos (by rw [hlen]; omega), hlen]
      rw [hpush]
      have hdl : ((buf ++ [r]).drop 1).length = 100 := by
        rw [List.length_drop, hlen]
      rw [ih _ (by rw [hdl]), hdl]
      rw [← List.drop_append_of_le_length (by rw [hlen]; omega)]
      rw [List.drop_drop]
      have hix2 : buf.length + (r :: rs).length - 100 = rs.length + 1 := by
        rw [List.length_cons]
        omega
      rw [hix2, List.append_assoc, List.singleton_append]
      congr 1
      omega

theorem buildRecord_ok_type (now : String) (e : Json) (r : StoredRecord)
    (h : buildRecord now e = Except.ok r) : jsGetJ e "type" = Except.ok r.type := by
  rw [buildRecord] at h
  split at h
  · simp at h
  next i hi =>
    split at h
    · simp at h
    next t ht =>
      split at h
      · simp at h
      next d hd =>
        split at h
        · simp at h
        next o ho =>
          rw [Except.ok.injEq] at h
          rw [← h]
          exact ht

theorem ingestVerified_buf (e : Json) (now : String) (buf : List StoredRecord) :
    (ingestVerified e now buf).buf = buf ∨
    ∃ r, (ingestVerified e now buf).buf = pushRecord buf r := by
  rcases hb : buildRecord now e with m | r
  · simp [ingestVerified, hb]
  · rcases hd : dispatchEvent e with m | u
    · simp only [ingestVerified, hb, hd]
      exact Or.inr ⟨r, rfl⟩
    · simp only [ingestVerified, hb, hd]
      exact Or.inr ⟨r, rfl⟩

theorem webhookHandler_buf (vo : String → String → String → Bool)
    (pj : String → Option Json) (secret sig : Option String) (body now : String)
    (buf : List StoredRecord) :
    (webhookHandler vo pj secret sig body now buf).buf = buf ∨
    ∃ r, (webhookHandler vo pj secret sig body now buf).buf = pushRecord buf r := by
  rcases hv : verifyWebhook vo pj secret sig body with m | e
  · simp [webhookHandler, hv]
  · by_cases hc : (truthyOptStr secret && truthyOptStr sig) = true
    · rcases htp : jsGetJ e "type" with tm | tv
      · simp [webhookHandler, hv, hc, htp]
      · have hw : webhookHandler vo pj secret sig body now buf =
            ingestVerified e now buf := by
          simp [webhookHandler, hv, hc, htp]
        rw [hw]
        exact ingestVerified_buf e now buf
    · rw [Bool.not_eq_true] at hc
      have hw : webhookHandler vo pj secret sig body now buf =
          ingestVerified e now buf := by
        simp [webhookHandler, hv, hc]
      rw [hw]
      exact ingestVerified_buf e now buf

theorem systemStep_buf (vo : String → String → String → Bool) (pj : String → Option Json)
    (env : Nat → Bool) (secret : Option String) (s : SysState) (req : Request) :
    (systemStep vo pj env secret s req).1.buf =
      (webhookHandler vo pj secret req.sig req.body req.now s.buf).buf := rfl

theorem runSystem_buf_le (vo : String → String → String → Bool)
    (pj : String → Option Json) (env : Nat → Bool) (secret : Option String)
    (reqs : List Request) : (runSystem vo pj env secret reqs).buf.length ≤ 100 := by
  suffices h : ∀ s : SysState, s.buf.length ≤ 100 →
      (reqs.foldl (fun s r => (systemStep vo pj env secret s r).1) s).buf.length ≤ 100 by
    exact h initialState (by simp [initialState])
  induction reqs with
  | nil =>
    intro s hs
    simpa using hs
  | cons r rs ih =>
    intro s hs
    rw [List.foldl_cons]
    apply ih
    rw [systemStep_buf]
    rcases webhookHandler_buf vo pj secret r.sig r.body r.now s.buf with hb | ⟨rec, hb⟩
    · rw [hb]; exact hs
    · rw [hb]; exact pushRecord_length _ _ hs

/-! ## Claims -/

/-- C1 (amended): in the main server's handler, when the configured secret and the
signature header are both present and non-empty, the payload is verified against the
signature before being accepted (a mismatch rejects the request, a match accepts
exactly the parse of the raw body); when either is absent or empty, the raw body is
parsed directly with no cryptographic check; malformed JSON fails in either branch.
The customer-flow server's handler instead always verifies: with the secret or the
signature header absent it rejects the request. -/
theorem c1_verify_branches (vo : String → String → String → Bool)
    (pj : String → Option Json) (secret sig : Option String) (body : String) :
    (∀ sc sg, secret = some sc → sig = some sg →
        truthyOptStr secret = true → truthyOptStr sig = true →
        ((vo body sg sc = false →
            ∃ m, verifyWebhook vo pj secret sig body = Except.error m) ∧
         (vo body sg sc = true →
            verifyWebhook vo pj secret sig body = jsonParseStep pj body)))
    ∧ ((truthyOptStr secret && truthyOptStr sig) = false →
        verifyWebhook vo pj secret sig body = jsonParseStep pj body)
    ∧ (pj body = none → ∃ m, verifyWebhook vo pj secret sig body = Except.error m)
    ∧ ((sig = none ∨ secret = none) →
        ∃ m, iapWebhookHandler vo pj secret sig body = WebhookResponse.clientError m) := by
  refine ⟨?_, ?_, ?_, ?_⟩
  · intro sc sg hsc hsg ht1 ht2
    subst hsc
    subst hsg
    constructor
    · intro hvo
      exact ⟨"signature verification failed",
        by simp [verifyWebhook, ht1, ht2, constructEventModel, hvo]⟩
    · intro hvo
      simp [verifyWebhook, ht1, ht2, constructEventModel, hvo]
  · intro hff
    simp [verifyWebhook, hff]
  · intro hpj
    by_cases hc : (truthyOptStr secret && truthyOptStr sig) = true
    · rcases secret with _ | sc
      · simp [truthyOptStr] at hc
      · rcases sig with _ | sg
        · simp [truthyOptStr] at hc
        · by_cases hvo : vo body sg sc = true
          · exact ⟨"invalid JSON payload",
              by simp [verifyWebhook, hc, constructEventModel, hvo, jsonParseStep, hpj]⟩
          · exact ⟨"signature verification failed",
              by simp [verifyWebhook, hc, constructEventModel,
                Bool.not_eq_true _ ▸ hvo, jsonParseStep]⟩
    · rw [Bool.not_eq_true] at hc
      exact ⟨"invalid JSON payload", by simp [verifyWebhook, hc, jsonParseStep, hpj]⟩
  · intro hor
    refine ⟨"missing signature or secret", ?_⟩
    rcases hor with hsig | hsec
    · subst hsig
      rfl
    · subst hsec
      rcases sig with _ | sg
      · rfl
      · rfl

/-- C1 witness: concrete instances for each branch of `c1_verify_branches`:
signature mismatch rejected; match accepted as the parsed body; missing secret
falls back to the plain parse; malformed JSON rejected; the customer-flow
handler rejects when both secret and header are absent. -/
theorem c1_verify_branches_witness :
    (∃ m, verifyWebhook voFalse pjGood (some "whsec") (some "sighdr") bodyGood =
      Except.error m)
    ∧ verifyWebhook voTrue pjGood (some "whsec") (some "sighdr") bodyGood =
        jsonParseStep pjGood bodyGood
    ∧ verifyWebhook voTrue pjGood none (some "sighdr") bodyGood =
        jsonParseStep pjGood bodyGood
    ∧ (∃ m, verifyWebhook voTrue pjNone none none bodyGood = Except.error m)
    ∧ (∃ m, iapWebhookHandler voTrue pjGood none none bodyGood =
        WebhookResponse.clientError m) := by
  refine ⟨?_, ?_, ?_, ?_, ?_⟩
  · exact ((c1_verify_branches voFalse pjGood (some "whsec") (some "sighdr")
      bodyGood).1 "whsec" "sighdr" rfl rfl (by decide) (by decide)).1 rfl
  · exact ((c1_verify_branches voTrue pjGood (some "whsec") (some "sighdr")
      bodyGood).1 "whsec" "sighdr" rfl rfl (by decide) (by decide)).2 rfl
  · exact (c1_verify_branches voTrue pjGood none (some "sighdr") bodyGood).2.1
      (by decide)
  · exact (c1_verify_branches voTrue pjNone none none bodyGood).2.2.1 rfl
  · exact (c1_verify_branches voTrue pjGood none none bodyGood).2.2.2 (Or.inl rfl)

/-- C1 counterexample: the claim quantifies over every inbound webhook request of
both cited handlers, but the customer-flow server's handler has no unauthenticated
fallback: with the secret and the signature header both absent and a well-formed
JSON body, the parse succeeds yet the request is rejected with a client error
instead of the parsed value being accepted. -/
theorem c1_verify_cex :
    pjGood bodyGood = some evGood ∧
    iapWebhookHandler voTrue pjGood none none bodyGood =
      WebhookResponse.clientError "missing signature or secret" ∧
    WebhookResponse.clientError "missing signature or secret" ≠ WebhookResponse.ok := by
  refine ⟨rfl, rfl, by decide⟩

/-- C2 (amended): for every successfully verified event whose stored-record
construction and dispatch do not throw (the event has a non-null `data` field, and
`data.object` is defined and non-null when the type is one of the two
payment-intent cases), the handler pushes the record into the ring buffer, fires
the log append, and responds `200 {"received": true}`. A verified event whose
record construction would throw instead fails the request with nothing buffered
or logged: in the signature-verified branch a `null` event's TypeError is raised
by the in-try success log line's `event.type` read and caught, giving a 400 with
its message; otherwise the throw escapes the handler and gives a server error. -/
theorem c2_buffer_and_ack (vo : String → String → String → Bool)
    (pj : String → Option Json) (secret sig : Option String) (body now : String)
    (buf : List StoredRecord) (e : Json)
    (hv : verifyWebhook vo pj secret sig body = Except.ok e) :
    ((∀ r, buildRecord now e = Except.ok r → dispatchEvent e = Except.ok () →
        webhookHandler vo pj secret sig body now buf =
          ⟨WebhookResponse.ok, pushRecord buf r, some e, true⟩)
     ∧ (∀ m, buildRecord now e = Except.error m →
        (((truthyOptStr secret && truthyOptStr sig) = false →
            webhookHandler vo pj secret sig body now buf =
              ⟨WebhookResponse.serverError, buf, none, false⟩)
         ∧ (∀ tm, (truthyOptStr secret && truthyOptStr sig) = true →
              jsGetJ e "type" = Except.error tm →
              webhookHandler vo pj secret sig body now buf =
                ⟨WebhookResponse.clientError tm, buf, none, false⟩)
         ∧ (∀ tv, (truthyOptStr secret && truthyOptStr sig) = true →
              jsGetJ e "type" = Except.ok tv →
              webhookHandler vo pj secret sig body now buf =
                ⟨WebhookResponse.serverError, buf, none, false⟩))))
    ∧ statusOf WebhookResponse.ok = 200
    ∧ bodyOf WebhookResponse.ok = "\x7b\"received\":true\x7d" := by
  refine ⟨⟨?_, ?_⟩, rfl, rfl⟩
  · intro r hb hd
    have htyp : jsGetJ e "type" = Except.ok r.type := buildRecord_ok_type now e r hb
    by_cases hc : (truthyOptStr secret && truthyOptStr sig) = true
    · have hw : webhookHandler vo pj secret sig body now buf =
          ingestVerified e now buf := by
        simp [webhookHandler, hv, hc, htyp]
      rw [hw]
      simp [ingestVerified, hb, hd]
    · rw [Bool.not_eq_true] at hc
      have hw : webhookHandler vo pj secret sig body now buf =
          ingestVerified e now buf := by
        simp [webhookHandler, hv, hc]
      rw [hw]
      simp [ingestVerified, hb, hd]
  · intro m hb
    refine ⟨?_, ?_, ?_⟩
    · intro hc
      have hw : webhookHandler vo pj secret sig body now buf =
          ingestVerified e now buf := by
        simp [webhookHandler, hv, hc]
      rw [hw]
      simp [ingestVerified, hb]
    · intro tm hc htm
      simp [webhookHandler, hv, hc, htm]
    · intro tv hc htv
      have hw : webhookHandler vo pj secret sig body now buf =
          ingestVerified e now buf := by
        simp [webhookHandler, hv, hc, htv]
      rw [hw]
      simp [ingestVerified, hb]

/-- C2 witness: the good event is verified, builds its record, dispatches without
throwing, and is acknowledged with 200; a signature-verified `null` body throws
building the record, but the in-try `event.type` read throws first and is caught,
answering 400 with its message and mutating nothing. -/
theorem c2_buffer_and_ack_witness :
    verifyWebhook voTrue pjGood none none bodyGood = Except.ok evGood
    ∧ buildRecord now0 evGood = Except.ok recGood
    ∧ dispatchEvent evGood = Except.ok ()
    ∧ webhookHandler voTrue pjGood none none bodyGood now0 [] =
        ⟨WebhookResponse.ok, pushRecord [] recGood, some evGood, true⟩
    ∧ verifyWebhook voTrue pjNull (some "whsec") (some "sighdr") bodyNull =
        Except.ok Json.null
    ∧ (∃ m, buildRecord now0 Json.null = Except.error m)
    ∧ jsGetJ Json.null "type" =
        Except.error "TypeError: cannot read properties of null"
    ∧ webhookHandler voTrue pjNull (some "whsec") (some "sighdr") bodyNull now0 [] =
        ⟨WebhookResponse.clientError "TypeError: cannot read properties of null",
          [], none, false⟩
    ∧ statusOf WebhookResponse.ok = 200 := by
  refine ⟨rfl, rfl, rfl, ?_, rfl, ⟨_, rfl⟩, rfl, ?_, rfl⟩
  · exact ((c2_buffer_and_ack voTrue pjGood none none bodyGood now0 [] evGood
      rfl).1.1) recGood rfl rfl
  · exact (((c2_buffer_and_ack voTrue pjNull (some "whsec") (some "sighdr") bodyNull
      now0 [] Json.null rfl).1.2) "TypeError: cannot read properties of null"
      rfl).2.1 "TypeError: cannot read properties of null" rfl rfl

/-- C2 counterexample: the empty JSON object is successfully verified (fallback
parse), yet the buffering step throws reading `event.data.object`, so the handler
responds with a server error, not 200, and nothing is buffered or logged. -/
theorem c2_buffer_and_ack_cex :
    verifyWebhook voTrue pjEmpty none none bodyEmpty = Except.ok evEmpty
    ∧ webhookHandler voTrue pjEmpty none none bodyEmpty now0 [] =
        ⟨WebhookResponse.serverError, [], none, false⟩
    ∧ WebhookResponse.serverError ≠ WebhookResponse.ok :=
  ⟨rfl, rfl, by decide⟩

/-- C3 (confirmed): when verification (or the fallback parse) fails, the request
step leaves the whole system state unchanged (ring buffer and filesystem world),
no log append is fired, the dispatch switch does not run, and the response is 400
with `Webhook Error: ` and the verification error message. -/
theorem c3_reject_no_mutation (vo : String → String → String → Bool)
    (pj : String → Option Json) (env : Nat → Bool) (secret : Option String)
    (s : SysState) (req : Request) (m : String)
    (h : verifyWebhook vo pj secret req.sig req.body = Except.error m) :
    systemStep vo pj env secret s req = (s, WebhookResponse.clientError m)
    ∧ (webhookHandler vo pj secret req.sig req.body req.now s.buf).dispatched = false
    ∧ (webhookHandler vo pj secret req.sig req.body req.now s.buf).logged = none
    ∧ statusOf (WebhookResponse.clientError m) = 400
    ∧ bodyOf (WebhookResponse.clientError m) = "Webhook Error: " ++ m := by
  refine ⟨?_, ?_, ?_, rfl, rfl⟩
  · simp [systemStep, webhookHandler, h]
  · simp [webhookHandler, h]
  · simp [webhookHandler, h]

/-- C3 witness: a malformed body is rejected with 400 and mutates nothing. -/
theorem c3_reject_no_mutation_witness :
    verifyWebhook voTrue pjNone none reqBad.sig reqBad.body =
      Except.error "invalid JSON payload"
    ∧ systemStep voTrue pjNone envOK none initialState reqBad =
        (initialState, WebhookResponse.clientError "invalid JSON payload")
    ∧ (webhookHandler voTrue pjNone none reqBad.sig reqBad.body reqBad.now
        initialState.buf).dispatched = false
    ∧ statusOf (WebhookResponse.clientError "invalid JSON payload") = 400 := by
  refine ⟨rfl, ?_, ?_, rfl⟩
  · exact (c3_reject_no_mutation voTrue pjNone envOK none initialState reqBad
      "invalid JSON payload" rfl).1
  · exact (c3_reject_no_mutation voTrue pjNone envOK none initialState reqBad
      "invalid JSON payload" rfl).2.1

/-- C4 (confirmed): after any sequence of more than 100 pushes into the empty
buffer, exactly 100 records remain and they are exactly the last 100 pushed, in
arrival order. -/
theorem c4_ring_buffer (rs : List StoredRecord) (h : 100 < rs.length) :
    (List.foldl pushRecord [] rs).length = 100
    ∧ List.foldl pushRecord [] rs = rs.drop (rs.length - 100) := by
  have he := foldl_pushRecord_eq rs [] (by simp)
  simp only [List.nil_append, List.length_nil, Nat.zero_add] at he
  constructor
  · rw [he, List.length_drop]
    omega
  · rw [he]

/-- C4 witness: 101 pushes retain exactly the last 100. -/
theorem c4_ring_buffer_witness :
    100 < rs101.length
    ∧ (List.foldl pushRecord [] rs101).length = 100
    ∧ List.foldl pushRecord [] rs101 = rs101.drop (rs101.length - 100) := by
  have hlen : 100 < rs101.length := by
    rw [show rs101.length = (List.replicate 101 rec0).length from rfl,
      List.length_replicate]
    omega
  exact ⟨hlen, (c4_ring_buffer rs101 hlen).1, (c4_ring_buffer rs101 hlen).2⟩

/-- C9 (confirmed): after any sequence of requests from the initial state, the
`GET /webhook` snapshot reports as `total` exactly the current buffer length,
returns the buffer itself unchanged, and that length never exceeds 100 (so the
total is the retained count, not a cumulative count of all events received). -/
theorem c9_snapshot_total (vo : String → String → String → Bool)
    (pj : String → Option Json) (env : Nat → Bool) (secret : Option String)
    (reqs : List Request) :
    getWebhookSnapshot (runSystem vo pj env secret reqs).buf =
      (((runSystem vo pj env secret reqs).buf.length,
        (runSystem vo pj env secret reqs).buf),
       (runSystem vo pj env secret reqs).buf)
    ∧ (runSystem vo pj env secret reqs).buf.length ≤ 100 :=
  ⟨rfl, runSystem_buf_le vo pj env secret reqs⟩

/-- Structure of a successfully built log entry: every step of `buildEntry`
succeeded and the fields are as constructed. -/
theorem buildEntry_ok_shape (now : String) (event : Json) (entry : LogEntry)
    (h : buildEntry now event = Except.ok entry) :
    ∃ i t d, jsGetJ event "id" = Except.ok i ∧ jsGetJ event "type" = Except.ok t ∧
      jsGetJ event "data" = Except.ok d ∧ entry.receivedAt = now ∧
      entry.id = orNull i ∧ entry.type = orNull t ∧
      ((jsTruthy d = true ∧ jsGetO d "object" = Except.ok entry.payload) ∨
       (jsTruthy d = false ∧ entry.payload = some event)) := by
  rw [buildEntry] at h
  split at h
  · simp at h
  next i hi =>
    split at h
    · simp at h
    next t ht =>
      split at h
      · simp at h
      next d hd =>
        split at h
        next htr =>
          split at h
          · simp at h
          next p ho =>
            rw [Except.ok.injEq] at h
            refine ⟨i, t, d, hi, ht, hd, ?_, ?_, ?_, Or.inl ⟨htr, ?_⟩⟩
            · rw [← h]
            · rw [← h]
            · rw [← h]
            · rw [← h]
              exact ho
        next htr =>
          rw [Except.ok.injEq] at h
          rw [Bool.not_eq_true] at htr
          refine ⟨i, t, d, hi, ht, hd, ?_, ?_, ?_, Or.inr ⟨htr, ?_⟩⟩
          · rw [← h]
          · rw [← h]
          · rw [← h]
          · rw [← h]

/-- C7 (amended): a successfully built log entry carries the receipt timestamp,
`id` and `type` equal to the event's fields when those are truthy and `null`
otherwise, and `payload` equal to `event.data.object` when `event.data` is truthy
(so `undefined`, with the key omitted on serialization, when `data` has no
`object` property) and the whole event otherwise; the serialized entry contains
no newline, so the appended log line is a single line. -/
theorem c7_log_entry_fields (now : String) (event : Json) (entry : LogEntry)
    (h : buildEntry now event = Except.ok entry) :
    entry.receivedAt = now
    ∧ (∀ i, jsGetJ event "id" = Except.ok i → entry.id = orNull i)
    ∧ (∀ t, jsGetJ event "type" = Except.ok t → entry.type = orNull t)
    ∧ (∀ d, jsGetJ event "data" = Except.ok d → jsTruthy d = false →
        entry.payload = some event)
    ∧ (∀ d p, jsGetJ event "data" = Except.ok d → jsTruthy d = true →
        jsGetO d "object" = Except.ok p → entry.payload = p)
    ∧ newlineCount (serializeEntry entry) = 0 := by
  obtain ⟨i, t, d, hi, ht, hd, hra, hid, htyp, hdisj⟩ :=
    buildEntry_ok_shape now event entry h
  refine ⟨hra, ?_, ?_, ?_, ?_, serializeEntry_nl entry⟩
  · intro i' hi'
    rw [hi] at hi'
    rw [hid, Except.ok.inj hi']
  · intro t' ht'
    rw [ht] at ht'
    rw [htyp, Except.ok.inj ht']
  · intro d' hd' hfal
    rw [hd] at hd'
    rw [← Except.ok.inj hd'] at hfal
    rcases hdisj with ⟨htr, _⟩ | ⟨_, hp⟩
    · rw [htr] at hfal
      simp at hfal
    · exact hp
  · intro d' p hd' htr' ho'
    rw [hd] at hd'
    rw [← Except.ok.inj hd'] at htr' ho'
    rcases hdisj with ⟨_, hobj⟩ | ⟨hfal, _⟩
    · rw [hobj] at ho'
      exact Except.ok.inj ho' 
    · rw [hfal] at htr'
      simp at htr'

/-- C7 witness: the good event's entry has its id, type, the inner data object as
payload, and serializes without a newline. -/
theorem c7_log_entry_fields_witness :
    buildEntry now0 evGood = Except.ok entryGood
    ∧ entryGood.receivedAt = now0
    ∧ entryGood.id = orNull (some (Json.str "evt_1"))
    ∧ entryGood.type = orNull (some (Json.str "charge.refunded"))
    ∧ entryGood.payload = some (Json.obj [("id", Json.str "pi_1")])
    ∧ newlineCount (serializeEntry entryGood) = 0 := by
  refine ⟨rfl, ?_, ?_, ?_, ?_, ?_⟩
  · exact (c7_log_entry_fields now0 evGood entryGood rfl).1
  · exact (c7_log_entry_fields now0 evGood entryGood rfl).2.1
      (some (Json.str "evt_1")) rfl
  · exact (c7_log_entry_fields now0 evGood entryGood rfl).2.2.1
      (some (Json.str "charge.refunded")) rfl
  · exact (c7_log_entry_fields now0 evGood entryGood rfl).2.2.2.2.1
      (some (Json.obj [("object", Json.obj [("id", Json.str "pi_1")])]))
      (some (Json.obj [("id", Json.str "pi_1")])) rfl rfl rfl
  · exact (c7_log_entry_fields now0 evGood entryGood rfl).2.2.2.2.2

/-- C7 counterexample: for the event `{"data": 0}` the `data` field is present,
so the claim says the payload is the inner data object (which is `undefined`
here); the code instead branches on truthiness and stores the whole event as the
payload. -/
theorem c7_log_entry_fields_cex :
    (objLookup [("data", Json.num 0)] "data").isSome = true
    ∧ jsGetO (some (Json.num 0)) "object" = Except.ok none
    ∧ buildEntry now0 evDataZero =
        Except.ok ⟨now0, Json.null, Json.null, some evDataZero⟩
    ∧ (some evDataZero : Option Json) ≠ none := by
  refine ⟨rfl, rfl, rfl, by simp⟩

/-- C10 (confirmed): when the event's `id` (or `type`) field is absent, or
present but falsy, the corresponding log entry field is `null` — falsy presence
and absence are indistinguishable in those persisted fields. -/
theorem c10_falsy_fields_null (now : String) (event : Json) (entry : LogEntry)
    (h : buildEntry now event = Except.ok entry) :
    ((jsGetJ event "id" = Except.ok none → entry.id = Json.null)
     ∧ (∀ v, jsGetJ event "id" = Except.ok (some v) → jsTruthy (some v) = false →
         entry.id = Json.null))
    ∧ ((jsGetJ event "type" = Except.ok none → entry.type = Json.null)
     ∧ (∀ v, jsGetJ event "type" = Except.ok (some v) → jsTruthy (some v) = false →
         entry.type = Json.null)) := by
  obtain ⟨i, t, d, hi, ht, hd, _, hid, htyp, _⟩ :=
    buildEntry_ok_shape now event entry h
  refine ⟨⟨?_, ?_⟩, ⟨?_, ?_⟩⟩
  · intro hnone
    rw [hi] at hnone
    rw [hid, Except.ok.inj hnone]
    rfl
  · intro v hv hfal
    rw [hi] at hv
    rw [hid, Except.ok.inj hv]
    unfold orNull
    rw [hfal]
    simp
  · intro hnone
    rw [ht] at hnone
    rw [htyp, Except.ok.inj hnone]
    rfl
  · intro v hv hfal
    rw [ht] at hv
    rw [htyp, Except.ok.inj hv]
    unfold orNull
    rw [hfal]
    simp

/-- C10 witness: an event with empty-string `id` and `type` gets `null` for both
fields of its log entry, the same entry fields an absent `id`/`type` produce. -/
theorem c10_falsy_fields_null_witness :
    buildEntry now0 evFalsy = Except.ok entryFalsy
    ∧ jsGetJ evFalsy "id" = Except.ok (some (Json.str ""))
    ∧ jsTruthy (some (Json.str "")) = false
    ∧ entryFalsy.id = Json.null
    ∧ entryFalsy.type = Json.null := by
  refine ⟨rfl, rfl, rfl, ?_, ?_⟩
  · exact (c10_falsy_fields_null now0 evFalsy entryFalsy rfl).1.2 (Json.str "") rfl rfl
  · exact (c10_falsy_fields_null now0 evFalsy entryFalsy rfl).2.2 (Json.str "") rfl rfl

/-- C8 (confirmed): ensuring the log directory is idempotent — after two calls
on any filesystem the directory is present, the second call changes nothing and
catches no error. -/
theorem c8_ensure_dir_idempotent (fs : FS) (n : Nat) :
    (ensureLogDir envOK (ensureLogDir envOK ⟨fs, n⟩)).fs.dirs.contains LOG_DIR = true
    ∧ (ensureLogDir envOK ⟨fs, n⟩).fs.dirs.contains LOG_DIR = true
    ∧ (ensureLogDir envOK (ensureLogDir envOK ⟨fs, n⟩)).fs =
        (ensureLogDir envOK ⟨fs, n⟩).fs
    ∧ (ensureLogDirChecked envOK (ensureLogDir envOK ⟨fs, n⟩)).2 = false := by
  have hmem : ∀ g : FS, (mkdirRec g LOG_DIR).dirs.contains LOG_DIR = true := by
    intro g
    unfold mkdirRec
    split_ifs with hg
    · exact hg
    · simp
  have hidem : ∀ g : FS, g.dirs.contains LOG_DIR = true → mkdirRec g LOG_DIR = g := by
    intro g hg
    unfold mkdirRec
    rw [if_pos hg]
  refine ⟨?_, ?_, ?_, rfl⟩
  · show (mkdirRec (mkdirRec fs LOG_DIR) LOG_DIR).dirs.contains LOG_DIR = true
    exact hmem _
  · show (mkdirRec fs LOG_DIR).dirs.contains LOG_DIR = true
    exact hmem fs
  · show mkdirRec (mkdirRec fs LOG_DIR) LOG_DIR = mkdirRec fs LOG_DIR
    exact hidem _ (hmem fs)

/-- Reduction of `rotateLogIfNeeded` in the fault-free environment. -/
theorem rotate_envOK_eq (fs : FS) (n : Nat) (now : String) :
    rotateLogIfNeeded envOK ⟨fs, n⟩ now =
      match lookupFile fs.files LOG_FILE with
      | none => ⟨fs, n + 1⟩
      | some d =>
        if MAX_LOG_BYTES ≤ d.size then
          match lookupFile (renameFile fs LOG_FILE (rotatedPath (sanitizeTs now))).files
              (rotatedPath (sanitizeTs now)) with
          | some c =>
            ⟨⟨(renameFile fs LOG_FILE (rotatedPath (sanitizeTs now))).dirs,
              removeFile (setFile (renameFile fs LOG_FILE
                  (rotatedPath (sanitizeTs now))).files
                (gzipPath (sanitizeTs now)) (FileData.gz c))
                (rotatedPath (sanitizeTs now))⟩, n + 4⟩
          | none => ⟨renameFile fs LOG_FILE (rotatedPath (sanitizeTs now)), n + 4⟩
        else ⟨fs, n + 1⟩ := rfl

/-- C5 (confirmed): in the fault-free environment, `rotateLogIfNeeded` is a no-op
when the active log file is absent or smaller than 5,242,880 bytes; when the file
is at or above the threshold (and the timestamped archive name is fresh, as a
fresh wall-clock timestamp guarantees), afterwards the active filename is gone,
the renamed intermediate is gone, exactly one new `.gz` file exists at the
timestamped name, its decompressed content is the pre-rotation bytes, and no
other file or directory changed. -/
theorem c5_rotate_spec (fs : FS) (n : Nat) (now : String) :
    (lookupFile fs.files LOG_FILE = none →
        (rotateLogIfNeeded envOK ⟨fs, n⟩ now).fs = fs)
    ∧ (∀ d, lookupFile fs.files LOG_FILE = some d → d.size < MAX_LOG_BYTES →
        (rotateLogIfNeeded envOK ⟨fs, n⟩ now).fs = fs)
    ∧ (∀ d, lookupFile fs.files LOG_FILE = some d → MAX_LOG_BYTES ≤ d.size →
        lookupFile fs.files (gzipPath (sanitizeTs now)) = none →
        (lookupFile (rotateLogIfNeeded envOK ⟨fs, n⟩ now).fs.files LOG_FILE = none
        ∧ lookupFile (rotateLogIfNeeded envOK ⟨fs, n⟩ now).fs.files
            (gzipPath (sanitizeTs now)) = some (FileData.gz d)
        ∧ FileData.decompress (FileData.gz d) = some d
        ∧ lookupFile (rotateLogIfNeeded envOK ⟨fs, n⟩ now).fs.files
            (rotatedPath (sanitizeTs now)) = none
        ∧ (∀ p, p ≠ LOG_FILE → p ≠ rotatedPath (sanitizeTs now) →
            p ≠ gzipPath (sanitizeTs now) →
            lookupFile (rotateLogIfNeeded envOK ⟨fs, n⟩ now).fs.files p =
              lookupFile fs.files p)
        ∧ (rotateLogIfNeeded envOK ⟨fs, n⟩ now).fs.dirs = fs.dirs)) := by
  refine ⟨?_, ?_, ?_⟩
  · intro h
    rw [rotate_envOK_eq, h]
  · intro d h hlt
    have hns : ¬ MAX_LOG_BYTES ≤ d.size := by omega
    rw [rotate_envOK_eq, h]
    simp [hns]
  · intro d h hsz hfresh
    have hrne : rotatedPath (sanitizeTs now) ≠ LOG_FILE := rotatedPath_ne_log _
    have hgne : gzipPath (sanitizeTs now) ≠ LOG_FILE := gzipPath_ne_log _
    have hgr : gzipPath (sanitizeTs now) ≠ rotatedPath (sanitizeTs now) :=
      gzipPath_ne_rotated _
    have hren : renameFile fs LOG_FILE (rotatedPath (sanitizeTs now)) =
        ⟨fs.dirs, setFile (removeFile fs.files LOG_FILE)
          (rotatedPath (sanitizeTs now)) d⟩ := by
      unfold renameFile
      rw [h]
    have hlook : lookupFile (renameFile fs LOG_FILE
        (rotatedPath (sanitizeTs now))).files (rotatedPath (sanitizeTs now)) = some d := by
      rw [hren]
      exact lookupFile_set_self _ _ _
    have hrot : (rotateLogIfNeeded envOK ⟨fs, n⟩ now).fs =
        ⟨fs.dirs, removeFile (setFile (setFile (removeFile fs.files LOG_FILE)
          (rotatedPath (sanitizeTs now)) d) (gzipPath (sanitizeTs now)) (FileData.gz d))
          (rotatedPath (sanitizeTs now))⟩ := by
      rw [rotate_envOK_eq, h]
      simp only [if_pos hsz, hren, lookupFile_set_self]
    refine ⟨?_, ?_, rfl, ?_, ?_, ?_⟩
    · rw [hrot]
      show lookupFile (removeFile (setFile (setFile (removeFile fs.files LOG_FILE)
        (rotatedPath (sanitizeTs now)) d) (gzipPath (sanitizeTs now)) (FileData.gz d))
        (rotatedPath (sanitizeTs now))) LOG_FILE = none
      rw [lookupFile_remove_ne _ _ _ hrne, lookupFile_set_ne _ _ _ _ hgne,
        lookupFile_set_ne _ _ _ _ hrne, lookupFile_remove_self]
    · rw [hrot]
      show lookupFile (removeFile (setFile (setFile (removeFile fs.files LOG_FILE)
        (rotatedPath (sanitizeTs now)) d) (gzipPath (sanitizeTs now)) (FileData.gz d))
        (rotatedPath (sanitizeTs now))) (gzipPath (sanitizeTs now)) = some (FileData.gz d)
      rw [lookupFile_remove_ne _ _ _ (Ne.symm hgr), lookupFile_set_self]
    · rw [hrot]
      show lookupFile (removeFile (setFile (setFile (removeFile fs.files LOG_FILE)
        (rotatedPath (sanitizeTs now)) d) (gzipPath (sanitizeTs now)) (FileData.gz d))
        (rotatedPath (sanitizeTs now))) (rotatedPath (sanitizeTs now)) = none
      rw [lookupFile_remove_self]
    · intro p hp1 hp2 hp3
      rw [hrot]
      show lookupFile (removeFile (setFile (setFile (removeFile fs.files LOG_FILE)
        (rotatedPath (sanitizeTs now)) d) (gzipPath (sanitizeTs now)) (FileData.gz d))
        (rotatedPath (sanitizeTs now))) p = lookupFile fs.files p
      rw [lookupFile_remove_ne _ _ _ (Ne.symm hp2), lookupFile_set_ne _ _ _ _ (Ne.symm hp3),
        lookupFile_set_ne _ _ _ _ (Ne.symm hp2), lookupFile_remove_ne _ _ _ (Ne.symm hp1)]
    · rw [hrot]

/-- C5 witness: a threshold-sized active log is rotated into a fresh `.gz`
archive whose decompressed content is the original bytes. -/
theorem c5_rotate_spec_witness :
    lookupFile fsBig.files LOG_FILE = some bigData
    ∧ MAX_LOG_BYTES ≤ bigData.size
    ∧ lookupFile fsBig.files (gzipPath (sanitizeTs now0)) = none
    ∧ lookupFile (rotateLogIfNeeded envOK ⟨fsBig, 0⟩ now0).fs.files LOG_FILE = none
    ∧ lookupFile (rotateLogIfNeeded envOK ⟨fsBig, 0⟩ now0).fs.files
        (gzipPath (sanitizeTs now0)) = some (FileData.gz bigData)
    ∧ FileData.decompress (FileData.gz bigData) = some bigData := by
  have h1 : lookupFile fsBig.files LOG_FILE = some bigData := rfl
  have h2 : MAX_LOG_BYTES ≤ bigData.size := by
    rw [show bigData.size = (List.replicate 5242880 'a').length from rfl,
      List.length_replicate]
    norm_num [MAX_LOG_BYTES]
  have h3 : lookupFile fsBig.files (gzipPath (sanitizeTs now0)) = none := by
    rw [show fsBig.files = [(LOG_FILE, bigData)] from rfl, lookupFile,
      if_neg (Ne.symm (gzipPath_ne_log _))]
    rfl
  have hc := (c5_rotate_spec fsBig 0 now0).2.2 bigData h1 h2 h3
  exact ⟨h1, h2, h3, hc.1, hc.2.1, hc.2.2.1⟩

/-- C6 (confirmed): for every fault scenario, filesystem state and event, a call
to `appendWebhookLog` either leaves the filesystem exactly as the
directory-ensure and rotation phases left it (zero lines appended — entry build
threw or the append faulted) or appends exactly one line, the serialized entry
followed by a single newline; and the call always resolves (it is a total
function), so the webhook response never depends on it: the system step's
response equals the pure handler's response for every environment. -/
theorem c6_append_at_most_one_line (vo : String → String → String → Bool)
    (pj : String → Option Json) (env : Nat → Bool) (secret : Option String)
    (w : World) (buf : List StoredRecord) (req : Request) (event : Json)
    (now : String) :
    ((appendWebhookLog env w event now).fs =
        (rotateLogIfNeeded env (ensureLogDir env w) now).fs
     ∨ ∃ entry, buildEntry now event = Except.ok entry
        ∧ (appendWebhookLog env w event now).fs =
            appendFileFS (rotateLogIfNeeded env (ensureLogDir env w) now).fs LOG_FILE
              (serializeEntry entry ++ "\n")
        ∧ newlineCount (serializeEntry entry ++ "\n") = 1)
    ∧ (systemStep vo pj env secret ⟨w, buf⟩ req).2 =
        (webhookHandler vo pj secret req.sig req.body req.now buf).resp := by
  constructor
  · rcases hb : buildEntry now event with m | entry
    · left
      simp [appendWebhookLog, hb]
    · by_cases he : env (rotateLogIfNeeded env (ensureLogDir env w) now).clock = true
      · right
        refine ⟨entry, rfl, ?_, serialized_line_nl entry⟩
        simp [appendWebhookLog, hb, he]
      · left
        rw [Bool.not_eq_true] at he
        simp [appendWebhookLog, hb, he]
  · rfl
